import Mathlib

/-!
Shallow embedding of `src/pl_peak_extraction.py`.

A spectrum file is modelled as its list of text lines (`List String`); a
missing file is `Option.none`.  Floating-point values are modelled as
rationals (`ℚ`); the numeric coercion `pd.to_numeric(..., errors='coerce')`
followed by `dropna` is modelled by a partial decimal parser
(`parseFloat : String → Option ℚ`) — a cell that fails to parse yields
`none` and the row is dropped, exactly as a `NaN` cell is dropped by
`dropna` (the non-finite literals `nan`/`inf` are treated as parse
failures; a `nan` cell is dropped by `dropna` in the source as well).
Exceptions caught at the per-file boundary (`except ...: return None, None`)
are modelled by `analyzeCore` returning an explicit result constructor which
`analyze_single_pl_file` collapses to `(none, none)`.
-/

set_option maxRecDepth 40000

namespace PLPeak

/-! ## Configuration constants (module-level constants of the source) -/

/-- Source: `RAW_PL_DATA_FOLDER = 'PL_Spectra_Raw'`. -/
def RAW_PL_DATA_FOLDER : String := "PL_Spectra_Raw"

/-- Source: `OUTPUT_PEAK_DATA_FILE = 'extracted_pl_peaks.csv'`. -/
def OUTPUT_PEAK_DATA_FILE : String := "extracted_pl_peaks.csv"

/-- Source: `OUTPUT_FILE_TYPE = 'csv'`. -/
def OUTPUT_FILE_TYPE : String := "csv"

/-- Source: `PL_WAVELENGTH_COL_NAME = 'lambda [nm]'`. -/
def PL_WAVELENGTH_COL_NAME : String := "lambda [nm]"

/-- Source: `PL_INTENSITY_COL_NAME = 'intensity [a.u.]'`. -/
def PL_INTENSITY_COL_NAME : String := "intensity [a.u.]"

/-! ## Numeric coercion (`pd.to_numeric(..., errors='coerce')`) -/

/-- Decimal value of a digit list read left to right. -/
def natOfDigits (l : List Char) : Nat :=
  l.foldl (fun a c => a * 10 + (c.toNat - 48)) 0

/-- Optional leading sign of a numeric literal. -/
def parseSign : List Char → Int × List Char
  | '+' :: t => (1, t)
  | '-' :: t => (-1, t)
  | l => (1, l)

/-- Value of a parsed literal `sign`, integer digits, fraction digits,
exponent sign and exponent digits. -/
def floatVal (sgn : Int) (ip fp : List Char) (esgn : Int) (ed : Nat) : ℚ :=
  let base : ℚ := (natOfDigits ip : ℚ) + (natOfDigits fp : ℚ) / (10 : ℚ) ^ fp.length
  let scaled : ℚ := if 0 ≤ esgn then base * (10 : ℚ) ^ ed else base / (10 : ℚ) ^ ed
  (sgn : ℚ) * scaled

/-- Exponent part of a literal, after the `e`/`E`. -/
def parseExpPart (sgn : Int) (ip fp : List Char) (t : List Char) : Option ℚ :=
  let (esgn, t1) := parseSign t
  let ed := t1.takeWhile Char.isDigit
  let r := t1.dropWhile Char.isDigit
  if ed.isEmpty then none
  else if r.isEmpty then some (floatVal sgn ip fp esgn (natOfDigits ed))
  else none

/-- Model of numeric coercion of one cell: accepts optionally signed decimal
literals with optional fraction and exponent, surrounded by whitespace;
everything else coerces to `NaN`, modelled as `none`. -/
def parseFloat (s : String) : Option ℚ :=
  let l0 := s.data.dropWhile Char.isWhitespace
  let l := (l0.reverse.dropWhile Char.isWhitespace).reverse
  let (sgn, l1) := parseSign l
  let ip := l1.takeWhile Char.isDigit
  let r1 := l1.dropWhile Char.isDigit
  let fr :=
    match r1 with
    | '.' :: t => (t.takeWhile Char.isDigit, t.dropWhile Char.isDigit)
    | _ => ([], r1)
  if ip.isEmpty && fr.1.isEmpty then none
  else
    match fr.2 with
    | [] => some (floatVal sgn ip fr.1 1 0)
    | 'e' :: t => parseExpPart sgn ip fr.1 t
    | 'E' :: t => parseExpPart sgn ip fr.1 t
    | _ => none

/-! ## Header scan (the `for line in f: ... else: raise ValueError` loop) -/

/-- Substring test on character lists (Python `sub in line`). -/
def containsSeq (sub : List Char) : List Char → Bool
  | [] => sub.isEmpty
  | c :: t => sub.isPrefixOf (c :: t) || containsSeq sub t

/-- The loop condition `PL_WAVELENGTH_COL_NAME in line and PL_INTENSITY_COL_NAME in line`. -/
def containsBothMarkers (line : String) : Bool :=
  containsSeq PL_WAVELENGTH_COL_NAME.data line.data &&
    containsSeq PL_INTENSITY_COL_NAME.data line.data

/-- Index of the first line containing both column markers; this equals the
`skip_rows_count` computed by the source (number of lines before the header
line), `none` when the loop falls through to its `else` (ValueError). -/
def findHeader : List String → Option Nat
  | [] => none
  | l :: ls =>
    if containsBothMarkers l then some 0
    else (findHeader ls).map (· + 1)

/-! ## Data-region row parsing (`pd.read_csv(sep='\t', comment='#', names=[...])`
followed by `to_numeric` on both columns and `dropna`) -/

/-- Pandas `comment='#'`: the line is truncated at the first `#`. -/
def commentStrip (line : String) : String :=
  ⟨line.data.takeWhile (fun c => c != '#')⟩

/-- Fate of one physical line of the data region:
`skip` — fully commented or blank, produces no row at all;
`dropped` — produces a row with a `NaN` cell, removed by `dropna`;
`bad` — more fields than the two named columns, tokenizer error
(`ParserError`), which fails the whole `read_csv` call;
`pt w i` — a valid numeric (wavelength, intensity) row. -/
inductive RowParse where
  | skip : RowParse
  | dropped : RowParse
  | bad : RowParse
  | pt : ℚ → ℚ → RowParse
deriving DecidableEq

/-- Split a line of the data region on the configured field delimiter
(`sep='\t'`); a trailing delimiter yields a trailing empty field, and the
empty line yields one empty field, as in the pandas tokenizer. -/
def splitFields : List Char → List (List Char)
  | [] => [[]]
  | c :: t =>
    match splitFields t with
    | [] => [[]]
    | f :: fs => if c = '\t' then [] :: f :: fs else (c :: f) :: fs

/-- Parse one physical line of the data region.  A single-field line has a
missing second column, hence a `NaN` cell, and is dropped whatever its first
field holds. -/
def parseLine (line : String) : RowParse :=
  let stripped := commentStrip line
  if stripped.isEmpty then .skip
  else
    match splitFields stripped.data with
    | [_] => .dropped
    | [a, b] =>
      match parseFloat ⟨a⟩, parseFloat ⟨b⟩ with
      | some w, some i => .pt w i
      | _, _ => .dropped
    | _ => .bad

/-- Parse the whole data region: `none` on a tokenizer error, otherwise the
ordered list of valid numeric rows that survive `dropna`. -/
def parsePoints : List String → Option (List (ℚ × ℚ))
  | [] => some []
  | l :: ls =>
    match parseLine l with
    | .bad => none
    | .pt w i => (parsePoints ls).map (fun ps => (w, i) :: ps)
    | _ => parsePoints ls

/-! ## Peak extraction (`idxmax` and the `.loc` reads) -/

/-- Model of `Series.idxmax` followed by the two `.loc` reads: fold over the
parsed points keeping the earliest row of strictly maximal intensity.
`idxmax` returns the label of the first occurrence of the maximum. -/
def firstArgmax (p : ℚ × ℚ) (ps : List (ℚ × ℚ)) : ℚ × ℚ :=
  ps.foldl (fun acc q => if acc.2 < q.2 then q else acc) p

/-- Result of the body of `analyze_single_pl_file` before the `except`
handlers collapse every failure to `(None, None)`:
`headerNotFound` — the ValueError raised by the loop `else` (its message
names the file path, carried here);
`parseError` — any other exception out of `read_csv` (tokenizer error);
`noData` — the empty-DataFrame early return;
`peak w i` — the returned peak pair. -/
inductive AnalyzeResult where
  | headerNotFound : String → AnalyzeResult
  | parseError : AnalyzeResult
  | noData : AnalyzeResult
  | peak : ℚ → ℚ → AnalyzeResult
deriving DecidableEq

/-- Body of `analyze_single_pl_file`: find the header line, read the data
region starting at the header line itself (`skiprows` skips only the lines
before it), coerce and drop invalid rows, and take the first argmax. -/
def analyzeCore (file_path : String) (lines : List String) : AnalyzeResult :=
  match findHeader lines with
  | none => .headerNotFound file_path
  | some k =>
    match parsePoints (lines.drop k) with
    | none => .parseError
    | some [] => .noData
    | some (p :: ps) => .peak (firstArgmax p ps).1 (firstArgmax p ps).2

/-- `analyze_single_pl_file` as seen by the caller: a missing file
(`FileNotFoundError`) and every in-body failure are caught and become
`(None, None)`; success returns the two peak values. -/
def analyze_single_pl_file (file_path : String) (file : Option (List String)) :
    Option ℚ × Option ℚ :=
  match file with
  | none => (none, none)
  | some lines =>
    match analyzeCore file_path lines with
    | .peak w i => (some w, some i)
    | _ => (none, none)

/-! ## Sample-ID derivation (`os.path.splitext`) -/

/-- Index of the last occurrence of a character. -/
def lastIndexOf (c : Char) : List Char → Option Nat
  | [] => none
  | a :: t =>
    match lastIndexOf c t with
    | some i => some (i + 1)
    | none => if a = c then some 0 else none

/-- Root component of `os.path.splitext` (POSIX): the extension starts at the
last dot, provided some character strictly between the last path separator
and that dot is not itself a dot; otherwise the name has no extension. -/
def splitextRoot (p : String) : String :=
  let l := p.data
  let fstart : Nat :=
    match lastIndexOf '/' l with
    | none => 0
    | some s => s + 1
  match lastIndexOf '.' l with
  | none => p
  | some d =>
    if ((l.take d).drop fstart).any (fun c => c != '.') then ⟨l.take d⟩ else p

/-- Source: `os.path.splitext(filename)[0]`. -/
def get_sample_id_from_filename (filename : String) : String :=
  splitextRoot filename

/-! ## Batch loop (`__main__`) -/

/-- `os.path.join` for the relative names produced by `os.listdir`. -/
def joinPath (a b : String) : String := a ++ "/" ++ b

/-- Python `str.endswith`, as a suffix test on the character lists. -/
def pyEndsWith (s sfx : String) : Bool := sfx.data.isSuffixOf s.data

/-- One accumulated output row (the dict appended to `processed_peaks_data`,
whose keys in insertion order are the three fixed column names). -/
structure PeakRow where
  QW_Sample : String
  PL_Peak_Wavelength_nm : ℚ
  PL_Peak_Intensity_au : ℚ
deriving DecidableEq

/-- Body of the `for filename in os.listdir(...)` loop for one entry: the
`.csv` suffix filter, the analysis call, and the conditional append. -/
def processStep (acc : List PeakRow) (fc : String × Option (List String)) :
    List PeakRow :=
  if pyEndsWith fc.1 ".csv" then
    match analyze_single_pl_file (joinPath RAW_PL_DATA_FOLDER fc.1) fc.2 with
    | (some w, some i) => acc ++ [⟨get_sample_id_from_filename fc.1, w, i⟩]
    | _ => acc
  else acc

/-- The whole batch loop over the directory listing (each entry: filename and
optional contents, `none` modelling an unreadable file). -/
def processFiles (files : List (String × Option (List String))) : List PeakRow :=
  files.foldl processStep []

/-- Row contributed by a single directory entry (`none` when the entry is
filtered out or its analysis fails); `processFiles` is its `filterMap`. -/
def rowOf (fc : String × Option (List String)) : Option PeakRow :=
  if pyEndsWith fc.1 ".csv" then
    match analyze_single_pl_file (joinPath RAW_PL_DATA_FOLDER fc.1) fc.2 with
    | (some w, some i) => some ⟨get_sample_id_from_filename fc.1, w, i⟩
    | _ => none
  else none

/-- File locator: the `if filename.endswith('.csv')` filter over the flat
`os.listdir` result. -/
def locator (listing : List String) : List String :=
  listing.filter (fun f => pyEndsWith f ".csv")

/-! ## Aggregated output (`pd.DataFrame(...)` and the write block) -/

/-- Column identifiers of the output table, in dict insertion order. -/
def outputColumns : List String :=
  ["QW_Sample", "PL_Peak_Wavelength_nm", "PL_Peak_Intensity_au"]

/-- Message printed when nothing was extracted. -/
def noExtractMsg : String :=
  "No PL peaks were successfully extracted. Check your raw data files and configuration."

/-- Message printed when the spreadsheet writer is unavailable. -/
def openpyxlMissingMsg : String :=
  "Error: openpyxl not installed. Cannot save to Excel. Please run: pip install openpyxl"

/-- Message reporting the delimited-text fallback path to the operator. -/
def savedInsteadMsg (p : String) : String :=
  "Saved to CSV instead: " ++ p

/-- What the write block of `__main__` does to the filesystem:
`noWrite` — zero rows collected, nothing written;
`csvWrite` / `excelWrite` — one table written at the given path;
`csvFallback` — `to_excel` raised ImportError, table written as CSV at the
derived path; `noneWritten` — unrecognized `OUTPUT_FILE_TYPE`, no write. -/
inductive WriteOutcome where
  | noWrite : WriteOutcome
  | csvWrite : String → List String → List PeakRow → WriteOutcome
  | excelWrite : String → String → List String → List PeakRow → WriteOutcome
  | csvFallback : String → List String → List PeakRow → WriteOutcome
  | noneWritten : WriteOutcome
deriving DecidableEq

/-- The `if not processed_peaks_data: ... else: ...` write block.
`openpyxlAvailable = false` models the ImportError raised by `to_excel`.
Returns the filesystem outcome together with the messages printed by the
block. -/
def writeOutput (fileType : String) (openpyxlAvailable : Bool) (path : String)
    (rows : List PeakRow) : WriteOutcome × List String :=
  if rows.isEmpty then (.noWrite, [noExtractMsg])
  else if fileType = "csv" then (.csvWrite path outputColumns rows, [])
  else if fileType = "excel" then
    if openpyxlAvailable then (.excelWrite path "PL_Peaks" outputColumns rows, [])
    else
      (.csvFallback (path.replace ".xlsx" ".csv") outputColumns rows,
        [openpyxlMissingMsg, savedInsteadMsg (path.replace ".xlsx" ".csv")])
  else (.noneWritten, [])

/-- The whole `__main__` run. The directory listing is `none` when
`os.listdir` itself fails (unreadable or non-existent directory): that
exception is not caught anywhere, so the run terminates before any file is
processed (`Except.error`). Every other path returns normally. -/
def runMain (dirListing : Option (List (String × Option (List String))))
    (openpyxlAvailable : Bool) :
    Except String (List PeakRow × WriteOutcome × List String) :=
  match dirListing with
  | none => .error RAW_PL_DATA_FOLDER
  | some files =>
    let rows := processFiles files
    let w := writeOutput OUTPUT_FILE_TYPE openpyxlAvailable OUTPUT_PEAK_DATA_FILE rows
    .ok (rows, w.1, w.2)

/-! ## Helper lemmas -/

/-- One loop iteration appends the (optional) row of its entry. -/
lemma processStep_eq (acc : List PeakRow) (fc : String × Option (List String)) :
    processStep acc fc = acc ++ (rowOf fc).toList := by
  unfold processStep rowOf
  by_cases h : pyEndsWith fc.1 ".csv" = true
  · rw [if_pos h, if_pos h]
    rcases hA : analyze_single_pl_file (joinPath RAW_PL_DATA_FOLDER fc.1) fc.2 with ⟨w, i⟩
    cases w <;> cases i <;> simp
  · rw [if_neg h, if_neg h]; simp

/-- The batch loop is the `filterMap` of the per-entry row. -/
lemma processFiles_eq (files : List (String × Option (List String))) :
    processFiles files = files.filterMap rowOf := by
  suffices h : ∀ acc, files.foldl processStep acc = acc ++ files.filterMap rowOf by
    simpa using h []
  induction files with
  | nil => intro acc; simp
  | cons fc fs ih =>
    intro acc
    rw [List.foldl_cons, List.filterMap_cons, processStep_eq, ih]
    cases h : rowOf fc <;> simp

/-- The header scan fails exactly when no line contains both markers. -/
lemma findHeader_eq_none_iff (ls : List String) :
    findHeader ls = none ↔ ∀ l ∈ ls, containsBothMarkers l = false := by
  induction ls with
  | nil => simp [findHeader]
  | cons l ls ih =>
    by_cases h : containsBothMarkers l = true
    · simp [findHeader, h]
    · have h' : containsBothMarkers l = false := by simpa using h
      simp [findHeader, h', ih]

/-- A found header index is inside the file. -/
lemma findHeader_lt_length {ls : List String} {k : Nat} (h : findHeader ls = some k) :
    k < ls.length := by
  induction ls generalizing k with
  | nil => simp [findHeader] at h
  | cons l ls ih =>
    simp only [findHeader] at h
    by_cases hc : containsBothMarkers l = true
    · rw [if_pos hc] at h
      cases h; simp
    · rw [if_neg hc] at h
      cases hf : findHeader ls with
      | none => rw [hf] at h; simp at h
      | some j =>
        rw [hf] at h
        simp only [Option.map_some', Option.some.injEq] at h
        have := ih hf
        simp only [List.length_cons]
        omega

/-- The first header line of `A` is still the first header line of `A ++ B`. -/
lemma findHeader_append_left {A : List String} {k : Nat} (h : findHeader A = some k)
    (B : List String) : findHeader (A ++ B) = some k := by
  induction A generalizing k with
  | nil => simp [findHeader] at h
  | cons l ls ih =>
    simp only [findHeader, List.cons_append] at h ⊢
    by_cases hc : containsBothMarkers l = true
    · rwa [if_pos hc] at h ⊢
    · rw [if_neg hc] at h ⊢
      cases hf : findHeader ls with
      | none => rw [hf] at h; simp at h
      | some j =>
        rw [hf] at h
        rw [List.append_eq, ih hf]
        exact h

/-- A line that produces no surviving row can be removed from the data region
without changing the parsed points. -/
lemma parsePoints_ignore {bad : String}
    (h : parseLine bad = .dropped ∨ parseLine bad = .skip) (C D : List String) :
    parsePoints (C ++ bad :: D) = parsePoints (C ++ D) := by
  induction C with
  | nil => rcases h with h | h <;> simp [parsePoints, h]
  | cons l C ih =>
    simp only [List.cons_append, parsePoints]
    cases hl : parseLine l <;> simp [ih]

/-- Removing a no-row line after the header leaves the whole analysis
unchanged. -/
lemma analyzeCore_ignore (path : String) {A : List String} (B : List String)
    {bad : String} (hA : (findHeader A).isSome = true)
    (h : parseLine bad = .dropped ∨ parseLine bad = .skip) :
    analyzeCore path (A ++ bad :: B) = analyzeCore path (A ++ B) := by
  obtain ⟨k, hk⟩ := Option.isSome_iff_exists.mp hA
  have hk1 := findHeader_append_left hk (bad :: B)
  have hk2 := findHeader_append_left hk B
  have hlen : k ≤ A.length := le_of_lt (findHeader_lt_length hk)
  simp only [analyzeCore, hk1, hk2]
  rw [List.drop_append_of_le_length hlen, List.drop_append_of_le_length hlen,
    parsePoints_ignore h]

/-- Unfolding one step of the argmax fold. -/
lemma firstArgmax_cons (p q : ℚ × ℚ) (ps : List (ℚ × ℚ)) :
    firstArgmax p (q :: ps) = firstArgmax (if p.2 < q.2 then q else p) ps := rfl

/-- The fold returns the first point of maximal intensity: it occurs in the
list, bounds every intensity, and every strictly earlier point has strictly
smaller intensity. -/
lemma firstArgmax_spec (p : ℚ × ℚ) (ps : List (ℚ × ℚ)) :
    ∃ idx : Nat, (p :: ps)[idx]? = some (firstArgmax p ps) ∧
      (∀ q ∈ p :: ps, q.2 ≤ (firstArgmax p ps).2) ∧
      (∀ j q, j < idx → (p :: ps)[j]? = some q → q.2 < (firstArgmax p ps).2) := by
  induction ps generalizing p with
  | nil =>
    refine ⟨0, rfl, ?_, ?_⟩
    · intro q hq
      have hqp : q = p := by simpa using hq
      simp [hqp, firstArgmax]
    · intro j q hj
      exact absurd hj (Nat.not_lt_zero j)
  | cons r rs ih =>
    rw [firstArgmax_cons]
    by_cases hpr : p.2 < r.2
    · rw [if_pos hpr]
      obtain ⟨idx, hget, hbound, hpref⟩ := ih r
      have hr2 : r.2 ≤ (firstArgmax r rs).2 := hbound r (List.mem_cons_self r rs)
      refine ⟨idx + 1, by simpa using hget, ?_, ?_⟩
      · intro q hq
        rcases List.mem_cons.mp hq with hq | hq
        · rw [hq]; exact le_of_lt (lt_of_lt_of_le hpr hr2)
        · exact hbound q hq
      · intro j q hj hjget
        cases j with
        | zero =>
          have hqp : q = p := by simpa using hjget.symm
          rw [hqp]; exact lt_of_lt_of_le hpr hr2
        | succ j =>
          exact hpref j q (by omega) (by simpa using hjget)
    · rw [if_neg hpr]
      have hrp : r.2 ≤ p.2 := le_of_not_lt hpr
      obtain ⟨idx, hget, hbound, hpref⟩ := ih p
      have hp2 : p.2 ≤ (firstArgmax p rs).2 := hbound p (List.mem_cons_self p rs)
      cases idx with
      | zero =>
        have hEq : p = firstArgmax p rs := by simpa using hget
        refine ⟨0, by simpa using hEq, ?_, ?_⟩
        · intro q hq
          rcases List.mem_cons.mp hq with hq | hq
          · rw [hq]; exact hp2
          rcases List.mem_cons.mp hq with hq | hq
          · rw [hq]; exact le_trans hrp hp2
          · exact hbound q (List.mem_cons_of_mem p hq)
        · intro j q hj
          exact absurd hj (Nat.not_lt_zero j)
      | succ i =>
        have hp_lt : p.2 < (firstArgmax p rs).2 :=
          hpref 0 p (Nat.succ_pos i) (by simp)
        refine ⟨i + 2, by simpa using hget, ?_, ?_⟩
        · intro q hq
          rcases List.mem_cons.mp hq with hq | hq
          · rw [hq]; exact hp2
          rcases List.mem_cons.mp hq with hq | hq
          · rw [hq]; exact le_trans hrp (le_of_lt hp_lt)
          · exact hbound q (List.mem_cons_of_mem p hq)
        · intro j q hj hjget
          match j with
          | 0 =>
            have hqp : q = p := by simpa using hjget.symm
            rw [hqp]; exact hp_lt
          | 1 =>
            have hqr : q = r := by simpa using hjget.symm
            rw [hqr]; exact lt_of_le_of_lt hrp hp_lt
          | (j' + 2) =>
            exact hpref (j' + 1) q (by omega) (by simpa using hjget)

/-- A two-field row with a coercion failure in either field is dropped. -/
lemma parseLine_dropped {bad : String} (a b : List Char)
    (hfields : splitFields (commentStrip bad).data = [a, b])
    (hfail : parseFloat ⟨a⟩ = none ∨ parseFloat ⟨b⟩ = none) :
    parseLine bad = .dropped := by
  have hne : (commentStrip bad).isEmpty = false := by
    cases hE : (commentStrip bad).isEmpty
    · rfl
    · exfalso
      have hz : commentStrip bad = "" := (String.isEmpty_iff _).mp hE
      rw [hz] at hfields
      simp only [show ("" : String).data = [] from rfl, splitFields] at hfields
      simp at hfields
  simp only [parseLine, hne, Bool.false_eq_true, if_false, hfields]
  rcases hfail with hf | hf
  · cases hb : parseFloat ⟨b⟩ <;> simp [hf, hb]
  · cases ha : parseFloat ⟨a⟩ <;> simp [ha, hf]

/-- A line beginning with the comment marker contributes nothing. -/
lemma parseLine_skip_of_hash {c : String} (hc : c.data.head? = some '#') :
    parseLine c = .skip := by
  have hz : commentStrip c = "" := by
    unfold commentStrip
    cases hd : c.data with
    | nil => rw [hd] at hc; simp at hc
    | cons ch t =>
      rw [hd] at hc
      simp only [List.head?_cons, Option.some.injEq] at hc
      rw [hc]
      simp [List.takeWhile_cons]
  have ht : ("" : String).isEmpty = true := rfl
  simp [parseLine, hz, ht]

/-! ## Evaluation lemmas for concrete inputs

Rational arithmetic does not reduce inside the kernel, so concrete parses
are evaluated in two steps: a `rfl` step up to `floatVal`, then `norm_num`
on the arithmetic. -/

/-- Value of a parsed literal with positive sign and no exponent. -/
lemma floatVal_pos_eval (ip fp : List Char) :
    floatVal 1 ip fp 1 0 =
      (natOfDigits ip : ℚ) + (natOfDigits fp : ℚ) / (10 : ℚ) ^ fp.length := by
  unfold floatVal
  norm_num

lemma parseFloat_500 : parseFloat "500.0" = some 500 := by
  rw [show parseFloat "500.0" = some (floatVal 1 ['5', '0', '0'] ['0'] 1 0) from rfl,
    floatVal_pos_eval]
  norm_num [show natOfDigits ['5', '0', '0'] = 500 from rfl,
    show natOfDigits ['0'] = 0 from rfl]

lemma parseFloat_510 : parseFloat "510.0" = some 510 := by
  rw [show parseFloat "510.0" = some (floatVal 1 ['5', '1', '0'] ['0'] 1 0) from rfl,
    floatVal_pos_eval]
  norm_num [show natOfDigits ['5', '1', '0'] = 510 from rfl,
    show natOfDigits ['0'] = 0 from rfl]

lemma parseFloat_10 : parseFloat "10.0" = some 10 := by
  rw [show parseFloat "10.0" = some (floatVal 1 ['1', '0'] ['0'] 1 0) from rfl,
    floatVal_pos_eval]
  norm_num [show natOfDigits ['1', '0'] = 10 from rfl,
    show natOfDigits ['0'] = 0 from rfl]

lemma parseFloat_55_2 : parseFloat "55.2" = some ((276 : ℚ) / 5) := by
  rw [show parseFloat "55.2" = some (floatVal 1 ['5', '5'] ['2'] 1 0) from rfl,
    floatVal_pos_eval]
  norm_num [show natOfDigits ['5', '5'] = 55 from rfl,
    show natOfDigits ['2'] = 2 from rfl]

lemma parseFloat_1 : parseFloat "1.0" = some 1 := by
  rw [show parseFloat "1.0" = some (floatVal 1 ['1'] ['0'] 1 0) from rfl,
    floatVal_pos_eval]
  norm_num [show natOfDigits ['1'] = 1 from rfl,
    show natOfDigits ['0'] = 0 from rfl]

lemma parseFloat_99 : parseFloat "99.0" = some 99 := by
  rw [show parseFloat "99.0" = some (floatVal 1 ['9', '9'] ['0'] 1 0) from rfl,
    floatVal_pos_eval]
  norm_num [show natOfDigits ['9', '9'] = 99 from rfl,
    show natOfDigits ['0'] = 0 from rfl]

/-- A two-field line whose fields both coerce is a valid point. -/
lemma parseLine_pt_eval {line : String} {a b : List Char} {w i : ℚ}
    (hne : (commentStrip line).isEmpty = false)
    (hf : splitFields (commentStrip line).data = [a, b])
    (ha : parseFloat ⟨a⟩ = some w) (hb : parseFloat ⟨b⟩ = some i) :
    parseLine line = .pt w i := by
  simp only [parseLine, hne, Bool.false_eq_true, if_false, hf, ha, hb]

lemma parseLine_500_10 : parseLine "500.0\t10.0" = .pt 500 10 :=
  parseLine_pt_eval (by decide) (by decide) parseFloat_500 parseFloat_10

lemma parseLine_510_55_2 : parseLine "510.0\t55.2" = .pt 510 ((276 : ℚ) / 5) :=
  parseLine_pt_eval (by decide) (by decide) parseFloat_510 parseFloat_55_2

lemma parseLine_500_1 : parseLine "500.0\t1.0" = .pt 500 1 :=
  parseLine_pt_eval (by decide) (by decide) parseFloat_500 parseFloat_1

lemma parseLine_500_99 : parseLine "500.0\t99.0" = .pt 500 99 :=
  parseLine_pt_eval (by decide) (by decide) parseFloat_500 parseFloat_99

/-- A one-element fold keeps the later point exactly when it is strictly
larger. -/
lemma firstArgmax_singleton (p q : ℚ × ℚ) (h : p.2 < q.2) : firstArgmax p [q] = q := by
  unfold firstArgmax
  simp [if_pos h]

/-- Parsed points of the comment-interleaved example file of the spec. -/
lemma parsePoints_c5 :
    parsePoints ["lambda [nm]\tintensity [a.u.]", "#note", "500.0\t1.0", "#skip",
      "500.0\t99.0"] = some [((500 : ℚ), (1 : ℚ)), (500, 99)] := by
  have h0 : parseLine "lambda [nm]\tintensity [a.u.]" = .dropped := by decide
  have h1 : parseLine "#note" = .skip := by decide
  have h3 : parseLine "#skip" = .skip := by decide
  simp [parsePoints, h0, h1, h3, parseLine_500_1, parseLine_500_99]

/-- Full analysis of the comment-interleaved example file. -/
lemma analyzeCore_c5 :
    analyzeCore "PL_Spectra_Raw/f.csv"
      ["lambda [nm]\tintensity [a.u.]", "#note", "500.0\t1.0", "#skip",
        "500.0\t99.0"] = .peak 500 99 := by
  have hfh : findHeader ["lambda [nm]\tintensity [a.u.]", "#note", "500.0\t1.0",
      "#skip", "500.0\t99.0"] = some 0 := by decide
  simp only [analyzeCore, hfh, List.drop_zero, parsePoints_c5]
  rw [firstArgmax_singleton _ _ (by norm_num : ((500 : ℚ), (1 : ℚ)).2 < ((500 : ℚ), (99 : ℚ)).2)]

/-! ## `os.path.splitext` lemmas -/

/-- A character that does not occur has no last index. -/
lemma lastIndexOf_eq_none {c : Char} {l : List Char} (h : c ∉ l) :
    lastIndexOf c l = none := by
  induction l with
  | nil => rfl
  | cons a t ih =>
    simp only [List.mem_cons, not_or] at h
    simp only [lastIndexOf, ih h.2]
    rw [if_neg (fun heq => h.1 heq.symm)]

/-- The last index in an appended list is found in the right part when it
occurs there. -/
lemma lastIndexOf_append {c : Char} {l₂ : List Char} {i : Nat}
    (h : lastIndexOf c l₂ = some i) (l₁ : List Char) :
    lastIndexOf c (l₁ ++ l₂) = some (l₁.length + i) := by
  induction l₁ with
  | nil => simpa using h
  | cons a t ih =>
    simp only [List.cons_append, lastIndexOf, List.append_eq, ih, List.length_cons]
    exact congrArg some (by omega)

/-- `splitext` strips a final `.csv` extension whenever the base name is not
made of dots only. -/
lemma splitextRoot_append_csv (s : String) (hs : '/' ∉ s.data)
    (hnd : ∃ ch ∈ s.data, ch ≠ '.') :
    splitextRoot (s ++ ".csv") = s := by
  have hdata : (s ++ ".csv").data = s.data ++ ['.', 'c', 's', 'v'] := rfl
  have hsep : lastIndexOf '/' (s.data ++ ['.', 'c', 's', 'v']) = none := by
    apply lastIndexOf_eq_none
    simp only [List.mem_append, not_or]
    exact ⟨hs, by decide⟩
  have hdot : lastIndexOf '.' (s.data ++ ['.', 'c', 's', 'v']) =
      some (s.data.length + 0) :=
    lastIndexOf_append (by decide) s.data
  have hany : (s.data.any fun c => c != '.') = true := by
    rcases hnd with ⟨ch, hmem, hne⟩
    exact List.any_eq_true.mpr ⟨ch, hmem, by simpa using hne⟩
  simp only [splitextRoot, hdata, hsep, hdot, Nat.add_zero, List.drop_zero,
    List.take_left]
  rw [if_pos hany]

/-- Parsed points of a two-row example file. -/
lemma parsePoints_cA :
    parsePoints ["lambda [nm]\tintensity [a.u.]", "500.0\t10.0", "510.0\t55.2"] =
      some [((500 : ℚ), (10 : ℚ)), (510, (276 : ℚ) / 5)] := by
  have h0 : parseLine "lambda [nm]\tintensity [a.u.]" = .dropped := by decide
  simp [parsePoints, h0, parseLine_500_10, parseLine_510_55_2]

/-- Full analysis of the two-row example file. -/
lemma analyzeCore_cA :
    analyzeCore "PL_Spectra_Raw/A.csv"
      ["lambda [nm]\tintensity [a.u.]", "500.0\t10.0", "510.0\t55.2"] =
      .peak 510 ((276 : ℚ) / 5) := by
  have hfh : findHeader ["lambda [nm]\tintensity [a.u.]", "500.0\t10.0",
      "510.0\t55.2"] = some 0 := by decide
  simp only [analyzeCore, hfh, List.drop_zero, parsePoints_cA]
  rw [firstArgmax_singleton _ _
    (by norm_num : ((500 : ℚ), (10 : ℚ)).2 < ((510 : ℚ), (276 : ℚ) / 5).2)]

/-! ## Claims -/

/-- C1: For every spectrum file that yields at least one valid numeric
(wavelength, intensity) row after parsing, `analyze_single_pl_file` returns
the pair whose intensity equals the maximum over all parsed intensities for
that file, and whose wavelength is the wavelength paired with the first
point (in file order) achieving that maximum (stable argmax tie-break). -/
theorem C1_peak_is_stable_argmax (path : String) (lines : List String) (k : Nat)
    (pts : List (ℚ × ℚ)) (hk : findHeader lines = some k)
    (hp : parsePoints (lines.drop k) = some pts) (hne : pts ≠ []) :
    ∃ (w i : ℚ) (idx : Nat),
      analyze_single_pl_file path (some lines) = (some w, some i) ∧
      pts[idx]? = some (w, i) ∧
      (∀ q ∈ pts, q.2 ≤ i) ∧
      (∀ (j : Nat) (q : ℚ × ℚ), j < idx → pts[j]? = some q → q.2 < i) := by
  cases pts with
  | nil => exact absurd rfl hne
  | cons p ps =>
    have hcore : analyzeCore path lines =
        .peak (firstArgmax p ps).1 (firstArgmax p ps).2 := by
      simp only [analyzeCore, hk, hp]
    obtain ⟨idx, hget, hbound, hpref⟩ := firstArgmax_spec p ps
    exact ⟨(firstArgmax p ps).1, (firstArgmax p ps).2, idx,
      by simp [analyze_single_pl_file, hcore], hget, hbound, hpref⟩

/-- Witness for C1 at a concrete two-row file. -/
theorem C1_witness :
    analyze_single_pl_file "PL_Spectra_Raw/A.csv"
      (some ["lambda [nm]\tintensity [a.u.]", "500.0\t10.0", "510.0\t55.2"]) =
      (some 510, some ((276 : ℚ) / 5)) := by
  obtain ⟨w, i, idx, h1, h2, h3, h4⟩ :=
    C1_peak_is_stable_argmax "PL_Spectra_Raw/A.csv"
      ["lambda [nm]\tintensity [a.u.]", "500.0\t10.0", "510.0\t55.2"] 0
      [((500 : ℚ), (10 : ℚ)), (510, (276 : ℚ) / 5)] (by decide)
      (by simpa using parsePoints_cA) (by simp)
  have hav : analyze_single_pl_file "PL_Spectra_Raw/A.csv"
      (some ["lambda [nm]\tintensity [a.u.]", "500.0\t10.0", "510.0\t55.2"]) =
      (some 510, some ((276 : ℚ) / 5)) := by
    simp [analyze_single_pl_file, analyzeCore_cA]
  rw [h1] at hav
  rw [h1]
  exact hav

/-- C2: A file that parses to zero valid numeric rows contributes no output
row, raises nothing to the per-file caller (the result is the explicit
`(none, none)` signal), and the batch is the same as without the file. -/
theorem C2_empty_data_skipped (name path : String) (lines : List String) (k : Nat)
    (pre post : List (String × Option (List String)))
    (hk : findHeader lines = some k)
    (hp : parsePoints (lines.drop k) = some []) :
    analyze_single_pl_file path (some lines) = (none, none) ∧
    processFiles (pre ++ (name, some lines) :: post) = processFiles (pre ++ post) := by
  have hcore : ∀ p, analyzeCore p lines = AnalyzeResult.noData := fun p => by
    simp only [analyzeCore, hk, hp]
  constructor
  · simp [analyze_single_pl_file, hcore path]
  · have hrow : rowOf (name, some lines) = none := by
      unfold rowOf
      by_cases h : pyEndsWith (name, some lines).1 ".csv" = true <;>
        simp [h, analyze_single_pl_file, hcore]
    simp [processFiles_eq, List.filterMap_append, List.filterMap_cons, hrow]

/-- Witness for C2 at a file whose only line is the header line. -/
theorem C2_witness :
    analyze_single_pl_file "PL_Spectra_Raw/B.csv"
      (some ["lambda [nm]\tintensity [a.u.]"]) = (none, none) ∧
    processFiles ([] ++ ("B.csv", some ["lambda [nm]\tintensity [a.u.]"]) :: []) =
      processFiles ([] ++ []) :=
  C2_empty_data_skipped "B.csv" "PL_Spectra_Raw/B.csv"
    ["lambda [nm]\tintensity [a.u.]"] 0 [] [] (by decide) (by decide)

/-- C3: When no line of a file contains both column markers, the analysis
signals a header-not-found failure naming the file, the caller records the
file as failed (the collapsed result is `(none, none)`, so no output row),
and the batch over the remaining files is unchanged. -/
theorem C3_header_not_found (name path : String) (lines : List String)
    (pre post : List (String × Option (List String)))
    (h : ∀ l ∈ lines, containsBothMarkers l = false) :
    analyzeCore path lines = .headerNotFound path ∧
    analyze_single_pl_file path (some lines) = (none, none) ∧
    processFiles (pre ++ (name, some lines) :: post) = processFiles (pre ++ post) := by
  have hf : findHeader lines = none := (findHeader_eq_none_iff lines).mpr h
  have hcore : ∀ p, analyzeCore p lines = AnalyzeResult.headerNotFound p := fun p => by
    simp only [analyzeCore, hf]
  refine ⟨hcore path, by simp [analyze_single_pl_file, hcore path], ?_⟩
  have hrow : rowOf (name, some lines) = none := by
    unfold rowOf
    by_cases hcsv : pyEndsWith (name, some lines).1 ".csv" = true <;>
      simp [hcsv, analyze_single_pl_file, hcore]
  simp [processFiles_eq, List.filterMap_append, List.filterMap_cons, hrow]

/-- Witness for C3 at a file with no header line. -/
theorem C3_witness :
    analyzeCore "PL_Spectra_Raw/C.csv" ["# just a comment", "400\t7"] =
      .headerNotFound "PL_Spectra_Raw/C.csv" ∧
    analyze_single_pl_file "PL_Spectra_Raw/C.csv"
      (some ["# just a comment", "400\t7"]) = (none, none) ∧
    processFiles ([] ++ ("C.csv", some ["# just a comment", "400\t7"]) :: []) =
      processFiles ([] ++ []) :=
  C3_header_not_found "C.csv" "PL_Spectra_Raw/C.csv" ["# just a comment", "400\t7"]
    [] [] (by decide)

/-- C4: A data-region row either of whose two fields fails numeric coercion
is dropped without failing the file: it never appears among the parsed
points and the whole analysis of the file is as if the row were absent. -/
theorem C4_malformed_rows_dropped (path : String) (A B : List String)
    (bad : String) (a b : List Char)
    (hfields : splitFields (commentStrip bad).data = [a, b])
    (hfail : parseFloat ⟨a⟩ = none ∨ parseFloat ⟨b⟩ = none)
    (hA : (findHeader A).isSome = true) :
    (∀ C D : List String, parsePoints (C ++ bad :: D) = parsePoints (C ++ D)) ∧
    analyzeCore path (A ++ bad :: B) = analyzeCore path (A ++ B) := by
  have hd : parseLine bad = .dropped := parseLine_dropped a b hfields hfail
  exact ⟨parsePoints_ignore (Or.inl hd), analyzeCore_ignore path B hA (Or.inl hd)⟩

/-- Witness for C4 at the malformed row of the spec. -/
theorem C4_witness :
    parsePoints (["500.0\t1.0"] ++ "abc\txyz" :: ["500.0\t99.0"]) =
      parsePoints (["500.0\t1.0"] ++ ["500.0\t99.0"]) ∧
    analyzeCore "PL_Spectra_Raw/D.csv"
        (["lambda [nm]\tintensity [a.u.]"] ++ "abc\txyz" :: ["500.0\t99.0"]) =
      analyzeCore "PL_Spectra_Raw/D.csv"
        (["lambda [nm]\tintensity [a.u.]"] ++ ["500.0\t99.0"]) := by
  have h := C4_malformed_rows_dropped "PL_Spectra_Raw/D.csv"
    ["lambda [nm]\tintensity [a.u.]"] ["500.0\t99.0"] "abc\txyz"
    ['a', 'b', 'c'] ['x', 'y', 'z'] (by decide) (Or.inl (by decide)) (by decide)
  exact ⟨h.1 ["500.0\t1.0"] ["500.0\t99.0"], h.2⟩

/-- C5: A data-region line beginning with the comment marker is excluded from
parsing and from peak computation; in particular, the spec's example file
with interleaved comment lines yields the peak (500.0, 99.0). -/
theorem C5_comment_lines_excluded (path : String) (A B : List String) (c : String)
    (hA : (findHeader A).isSome = true) (hc : c.data.head? = some '#') :
    analyzeCore path (A ++ c :: B) = analyzeCore path (A ++ B) ∧
    analyze_single_pl_file "PL_Spectra_Raw/f.csv"
      (some ["lambda [nm]\tintensity [a.u.]", "#note", "500.0\t1.0", "#skip",
        "500.0\t99.0"]) = (some 500, some 99) :=
  ⟨analyzeCore_ignore path B hA (Or.inr (parseLine_skip_of_hash hc)),
    by simp [analyze_single_pl_file, analyzeCore_c5]⟩

/-- Witness for C5 at a concrete comment line. -/
theorem C5_witness :
    analyzeCore "PL_Spectra_Raw/f.csv"
        (["lambda [nm]\tintensity [a.u.]"] ++ "#note" :: ["500.0\t99.0"]) =
      analyzeCore "PL_Spectra_Raw/f.csv"
        (["lambda [nm]\tintensity [a.u.]"] ++ ["500.0\t99.0"]) ∧
    analyze_single_pl_file "PL_Spectra_Raw/f.csv"
      (some ["lambda [nm]\tintensity [a.u.]", "#note", "500.0\t1.0", "#skip",
        "500.0\t99.0"]) = (some 500, some 99) :=
  C5_comment_lines_excluded "PL_Spectra_Raw/f.csv"
    ["lambda [nm]\tintensity [a.u.]"] ["500.0\t99.0"] "#note" (by decide) (by decide)

/-- C6: If zero rows were accumulated the write block performs no write;
otherwise (with the configured output type) it writes exactly the
accumulated table, with the three fixed columns, and the accumulated table
holds exactly one row per successfully processed file in file-processing
order (`filterMap` of the per-entry row). -/
theorem C6_aggregate_and_write (files : List (String × Option (List String)))
    (avail : Bool) :
    (processFiles files = [] →
      (writeOutput OUTPUT_FILE_TYPE avail OUTPUT_PEAK_DATA_FILE
        (processFiles files)).1 = .noWrite ∧
      (writeOutput OUTPUT_FILE_TYPE avail OUTPUT_PEAK_DATA_FILE
        (processFiles files)).2 = [noExtractMsg]) ∧
    (processFiles files ≠ [] →
      (writeOutput OUTPUT_FILE_TYPE avail OUTPUT_PEAK_DATA_FILE
        (processFiles files)).1 =
        .csvWrite OUTPUT_PEAK_DATA_FILE
          ["QW_Sample", "PL_Peak_Wavelength_nm", "PL_Peak_Intensity_au"]
          (processFiles files)) ∧
    processFiles files = files.filterMap rowOf ∧
    ∀ fc : String × Option (List String),
      ((rowOf fc).isSome = true ↔ pyEndsWith fc.1 ".csv" = true ∧
        ∃ w i : ℚ, analyze_single_pl_file (joinPath RAW_PL_DATA_FOLDER fc.1) fc.2 =
          (some w, some i)) := by
  refine ⟨?_, ?_, processFiles_eq files, ?_⟩
  · intro h
    rw [h]
    simp [writeOutput]
  · intro h
    have hE : (processFiles files).isEmpty = false := by
      rcases hq : processFiles files with _ | ⟨r, rs⟩
      · exact absurd hq h
      · rfl
    simp [writeOutput, hE, OUTPUT_FILE_TYPE, outputColumns]
  · intro fc
    unfold rowOf
    by_cases hcsv : pyEndsWith fc.1 ".csv" = true
    · simp only [hcsv, if_true, true_and]
      rcases hA : analyze_single_pl_file (joinPath RAW_PL_DATA_FOLDER fc.1) fc.2
        with ⟨w, i⟩
      cases w <;> cases i <;> simp
    · simp [hcsv]

/-- The demo batch of one valid file produces exactly one row. -/
lemma processFiles_demo :
    processFiles [("A.csv", some ["lambda [nm]\tintensity [a.u.]", "500.0\t10.0"])] =
      [⟨"A", 500, 10⟩] := by
  have hfh : findHeader ["lambda [nm]\tintensity [a.u.]", "500.0\t10.0"] = some 0 := by
    decide
  have h0 : parseLine "lambda [nm]\tintensity [a.u.]" = .dropped := by decide
  have hpp : parsePoints ["lambda [nm]\tintensity [a.u.]", "500.0\t10.0"] =
      some [((500 : ℚ), (10 : ℚ))] := by
    simp [parsePoints, h0, parseLine_500_10]
  have hcored : analyzeCore (joinPath RAW_PL_DATA_FOLDER "A.csv")
      ["lambda [nm]\tintensity [a.u.]", "500.0\t10.0"] = .peak 500 10 := by
    simp only [analyzeCore, hfh, List.drop_zero, hpp]
    rfl
  have hana : analyze_single_pl_file (joinPath RAW_PL_DATA_FOLDER "A.csv")
      (some ["lambda [nm]\tintensity [a.u.]", "500.0\t10.0"]) =
      (some 500, some 10) := by
    simp [analyze_single_pl_file, hcored]
  have hrow : rowOf ("A.csv", some ["lambda [nm]\tintensity [a.u.]", "500.0\t10.0"]) =
      some ⟨"A", 500, 10⟩ := by
    simp [rowOf, hana, show pyEndsWith "A.csv" ".csv" = true from by decide,
      show get_sample_id_from_filename "A.csv" = "A" from by decide]
  simp [processFiles_eq, hrow]

/-- Witness for C6 at a one-file batch. -/
theorem C6_witness :
    (writeOutput OUTPUT_FILE_TYPE true OUTPUT_PEAK_DATA_FILE
        (processFiles
          [("A.csv", some ["lambda [nm]\tintensity [a.u.]", "500.0\t10.0"])])).1 =
      .csvWrite OUTPUT_PEAK_DATA_FILE
        ["QW_Sample", "PL_Peak_Wavelength_nm", "PL_Peak_Intensity_au"]
        (processFiles
          [("A.csv", some ["lambda [nm]\tintensity [a.u.]", "500.0\t10.0"])]) :=
  (C6_aggregate_and_write
      [("A.csv", some ["lambda [nm]\tintensity [a.u.]", "500.0\t10.0"])] true).2.1
    (by rw [processFiles_demo]; simp)

/-- C7: When spreadsheet output is selected and the spreadsheet writer is
unavailable, the block writes delimited text at the path obtained by
replacing the `.xlsx` extension with `.csv`, reports the fallback to the
operator, and returns normally (the failure is not fatal). -/
theorem C7_excel_import_fallback (path : String) (rows : List PeakRow)
    (hne : rows ≠ []) :
    (writeOutput "excel" false path rows).1 =
      .csvFallback (path.replace ".xlsx" ".csv") outputColumns rows ∧
    savedInsteadMsg (path.replace ".xlsx" ".csv") ∈
      (writeOutput "excel" false path rows).2 := by
  have hE : rows.isEmpty = false := by
    cases rows
    · exact absurd rfl hne
    · rfl
  constructor <;> simp [writeOutput, hE]

/-- Witness for C7 at a one-row table and an `.xlsx` output path. -/
theorem C7_witness :
    (writeOutput "excel" false "extracted_pl_peaks.xlsx"
        [⟨"A", 510, (276 : ℚ) / 5⟩]).1 =
      .csvFallback ("extracted_pl_peaks.xlsx".replace ".xlsx" ".csv") outputColumns
        [⟨"A", 510, (276 : ℚ) / 5⟩] ∧
    savedInsteadMsg ("extracted_pl_peaks.xlsx".replace ".xlsx" ".csv") ∈
      (writeOutput "excel" false "extracted_pl_peaks.xlsx"
        [⟨"A", 510, (276 : ℚ) / 5⟩]).2 :=
  C7_excel_import_fallback "extracted_pl_peaks.xlsx" [⟨"A", 510, (276 : ℚ) / 5⟩]
    (by simp)

/-- C8: A failed directory listing is the one fatal, propagating failure
(`Except.error`, before any file is processed); with any readable listing
the whole run returns normally, whatever the files contain. -/
theorem C8_only_directory_failure_fatal
    (files : List (String × Option (List String))) (avail : Bool) :
    (∃ r, runMain (some files) avail = .ok r) ∧
    runMain none avail = .error RAW_PL_DATA_FOLDER :=
  ⟨⟨_, rfl⟩, rfl⟩

/-- C9: The locator selects exactly the listing entries whose name ends in
`.csv` (a flat filter, no recursion), and the derived sample id of a
selected file is the name with the `.csv` extension removed (for any name
whose base is not made of dots only, matching `os.path.splitext`). -/
theorem C9_locator_and_sample_id (listing : List String) (f : String) :
    (f ∈ locator listing ↔ f ∈ listing ∧ pyEndsWith f ".csv" = true) ∧
    (∀ s : String, f = s ++ ".csv" → '/' ∉ s.data → (∃ ch ∈ s.data, ch ≠ '.') →
      get_sample_id_from_filename f = s) := by
  constructor
  · exact List.mem_filter
  · intro s hf hs hnd
    rw [hf]
    unfold get_sample_id_from_filename
    exact splitextRoot_append_csv s hs hnd

/-- Witness for C9 at the sample filename of the source's docstring. -/
theorem C9_witness :
    "G25-023-center.csv" ∈ locator ["G25-023-center.csv", "notes.txt"] ∧
    get_sample_id_from_filename "G25-023-center.csv" = "G25-023-center" := by
  refine ⟨?_, ?_⟩
  · exact (C9_locator_and_sample_id ["G25-023-center.csv", "notes.txt"]
      "G25-023-center.csv").1.mpr ⟨by simp, by decide⟩
  · exact (C9_locator_and_sample_id ["G25-023-center.csv", "notes.txt"]
      "G25-023-center.csv").2 "G25-023-center" (by decide) (by decide) (by decide)

/-- C10: At its boundary `analyze_single_pl_file` is total and returns either
the explicit all-`none` failure signal or two `some` values; a pair with
exactly one `none` component is impossible. -/
theorem C10_boundary_totality (path : String) (file : Option (List String)) :
    analyze_single_pl_file path file = (none, none) ∨
      ∃ w i : ℚ, analyze_single_pl_file path file = (some w, some i) := by
  cases file with
  | none => exact Or.inl rfl
  | some lines =>
    cases h : analyzeCore path lines with
    | peak w i => exact Or.inr ⟨w, i, by simp [analyze_single_pl_file, h]⟩
    | headerNotFound p => exact Or.inl (by simp [analyze_single_pl_file, h])
    | parseError => exact Or.inl (by simp [analyze_single_pl_file, h])
    | noData => exact Or.inl (by simp [analyze_single_pl_file, h])

end PLPeak
